import Mathlib

/-!
# Verification of the processing core of django-imagefield

Shallow embedding of the crop-box geometry (`imagefield/backend_base.py`),
the processor chain builder and built-in processors
(`imagefield/processing_pillow.py`, mirrored by `processing_vips.py`),
the web-safe format-override spec (`imagefield/websafe.py`) and the
`save` retry of the Pillow backend (`imagefield/backend_pillow.py`).

Modelling conventions:
* Python floats are modelled as exact rationals (`ℚ`); `float(x)` casts are
  the coercions `(x : ℚ)`.
* Python `int(q)` (truncation toward zero) is `pyInt`; for the nonnegative
  quantities appearing here it is the floor.
* The Python integer floor division `a // 2` is `a / 2` on `ℤ` in Lean
  (`Int.ediv` floors for a positive divisor).
* Mutation of the processing context is modelled by explicit state passing:
  a processor takes and returns the image and the context.
* An image (`PImg`) carries its dimensions, EXIF orientation tag and a trace
  of the geometric operations applied to it, so that theorems can observe
  which crop box / resize a processor performed.
-/

namespace ImageField

/-- Python `int()` applied to a rational: truncation toward zero. -/
def pyInt (q : ℚ) : ℤ := if 0 ≤ q then ⌊q⌋ else ⌈q⌉

/-- Python `str.lower()`, on the ASCII strings used as file extensions. -/
def py_lower (s : String) : String := ⟨s.data.map Char.toLower⟩

/-- Embedding of `CropBox` from `imagefield/backend_base.py`: crop rectangle. -/
structure CropBox where
  left : ℤ
  top : ℤ
  width : ℤ
  height : ℤ
deriving DecidableEq, Repr

/-- The `if crop_left < 0: ... elif crop_left + crop_width > image_width: ...`
clamping of `calculate_crop_box` (low clamp first, then high clamp). -/
def crop_clamp (pos len bound : ℤ) : ℤ :=
  if pos < 0 then 0
  else if bound < pos + len then bound - len
  else pos

/-- Embedding of `calculate_crop_box` from `imagefield/backend_base.py` (the identical
inline copy lives in the vips `crop` processor, `processing_vips.py`). -/
def calculate_crop_box (image_width image_height target_width target_height : ℤ)
    (ppoi : ℚ × ℚ) : CropBox :=
  let ppoi_x_axis := pyInt ((image_width : ℚ) * ppoi.1)
  let ppoi_y_axis := pyInt ((image_height : ℚ) * ppoi.2)
  if (target_width : ℚ) / (target_height : ℚ) ≤ (image_width : ℚ) / (image_height : ℚ) then
    -- image is relatively wider: crop from left/right, full height
    let crop_width := pyInt ((target_width : ℚ) / (target_height : ℚ) * (image_height : ℚ) + 1/2)
    CropBox.mk (crop_clamp (ppoi_x_axis - crop_width / 2) crop_width image_width)
      0 crop_width image_height
  else
    -- image is relatively taller: crop from top/bottom, full width
    let crop_height := pyInt ((image_width : ℚ) / ((target_width : ℚ) / (target_height : ℚ)) + 1/2)
    CropBox.mk 0 (crop_clamp (ppoi_y_axis - crop_height / 2) crop_height image_height)
      image_width crop_height

/-- The size computed by the `thumbnail` processor
(`processing_pillow.py`: `f = min(1.0, size[0]/w, size[1]/h)`,
new size `[int(f * coord) for coord in image.size]`; `processing_vips.py`
computes the same `int(f * w)`, `int(f * h)`). -/
def thumbnail_size (w h mw mh : ℤ) : ℤ × ℤ :=
  let f : ℚ := min 1 (min ((mw : ℚ) / (w : ℚ)) ((mh : ℚ) / (h : ℚ)))
  (pyInt (f * (w : ℚ)), pyInt (f * (h : ℚ)))

/-- One entry of a processor specification list: a bare name or a name with
positional arguments (`crop`/`thumbnail` take one `(width, height)` pair). -/
structure PSpec where
  name : String
  args : List (ℤ × ℤ)
deriving DecidableEq, Repr

/-- The `ProcessingContext` fields this core reads and writes. -/
structure Ctx where
  ppoi : ℚ × ℚ
  extension : String
  processors : List PSpec
  save_kwargs : List (String × String)
deriving DecidableEq

/-- A processor transform: takes image and context, returns both (context
mutation in the Python source is modelled by state passing). -/
def Handler (α : Type) := α → Ctx → α × Ctx

/-- The processor registry of a backend: name to factory. A factory wraps a
downstream handler, receiving the extra arguments of the specification entry. -/
def Registry (α : Type) := String → Option (Handler α → List (ℤ × ℤ) → Handler α)

/-- The default base handler of `build_handler`:
`lambda image, context: image` (the context is left untouched). -/
def idHandler {α : Type} : Handler α := fun image context => (image, context)

/-- Embedding of `build_handler` from `imagefield/processing_pillow.py`: walks the
specification list in reverse, wrapping each factory around the accumulated
handler; an unregistered name raises `KeyError(name)` (modelled as
`Except.error name`).  Processing of the reversed list is modelled by
recursing on the tail first, which performs the registry lookups in the
same order as the Python `for part in reversed(processors)` loop. -/
def build_handler {α : Type} (registry : Registry α) :
    List PSpec → Handler α → Except String (Handler α)
  | [], handler => .ok handler
  | part :: rest, handler =>
    match build_handler registry rest handler with
    | .error e => .error e
    | .ok inner =>
      match registry part.name with
      | some factory => .ok (factory inner part.args)
      | none => .error part.name

/-- Shorthand for `build_handler` with its default base handler
(`handler = handler or (lambda image, context: image)`). -/
def build_handler_default {α : Type} (registry : Registry α) (processors : List PSpec) :
    Except String (Handler α) :=
  build_handler registry processors idHandler

/-- A geometric operation recorded on an image, so theorems can observe
what a processor did. -/
inductive ImgOp where
  | transposed
  | cropped (box : CropBox)
  | resized (w h : ℤ)
deriving DecidableEq, Repr

/-- A Pillow image as far as the geometry processors observe it:
dimensions, EXIF orientation tag, and the trace of applied operations. -/
structure PImg where
  width : ℤ
  height : ℤ
  orientation : ℕ
  ops : List ImgOp
deriving DecidableEq, Repr

/-- Embedding of `ImageOps.exif_transpose`: orientations 5-8 transpose the dimensions,
2-4 flip/rotate without changing them; the orientation tag is cleared. -/
def exif_transpose (image : PImg) : PImg :=
  if image.orientation ∈ [5, 6, 7, 8] then
    ⟨image.height, image.width, 1, image.ops ++ [.transposed]⟩
  else if image.orientation ∈ [2, 3, 4] then
    { image with orientation := 1, ops := image.ops ++ [.transposed] }
  else image

/-- The `autorotate` processor: transposes per EXIF, then calls downstream. -/
def autorotate (get_image : Handler PImg) : Handler PImg :=
  fun image context => get_image (exif_transpose image) context

/-- The `thumbnail` processor: calls downstream first, then resizes the
downstream result by `f = min(1.0, size[0]/w, size[1]/h)`. -/
def thumbnail (get_image : Handler PImg) (size : ℤ × ℤ) : Handler PImg :=
  fun image context =>
    let r := get_image image context
    let sz := thumbnail_size r.1.width r.1.height size.1 size.2
    (⟨sz.1, sz.2, r.1.orientation, r.1.ops ++ [.resized sz.1 sz.2]⟩, r.2)

/-- The `crop` processor: calls downstream first, computes the crop box from the
dimensions of the downstream result and the ppoi of the context, crops, then resizes
to the exact target size. -/
def crop (get_image : Handler PImg) (size : ℤ × ℤ) : Handler PImg :=
  fun image context =>
    let r := get_image image context
    let box := calculate_crop_box r.1.width r.1.height size.1 size.2 r.2.ppoi
    (⟨size.1, size.2, r.1.orientation,
      r.1.ops ++ [.cropped box, .resized size.1 size.2]⟩, r.2)

/-- Ordered-dictionary update, as Python `d[k] = v` on `save_kwargs`. -/
def set_kwarg : List (String × String) → String → String → List (String × String)
  | [], k, v => [(k, v)]
  | (k0, v0) :: rest, k, v =>
    if k0 = k then (k0, v) :: rest else (k0, v0) :: set_kwarg rest k v

/-- The `force_jpeg` processor from `imagefield/websafe.py`: sets the output
format to JPEG before downstream runs, then quality 95 afterwards. -/
def force_jpeg (get_image : Handler PImg) : Handler PImg :=
  fun image context =>
    let c1 := { context with save_kwargs := set_kwarg context.save_kwargs "format" "JPEG" }
    let r := get_image image c1
    (r.1, { r.2 with save_kwargs := set_kwarg r.2.save_kwargs "quality" "95" })

/-- The Pillow registry, restricted to the geometry/context processors
embedded here (`autorotate`, `thumbnail`, `crop` from
`processing_pillow.py` and `force_jpeg` from `websafe.py`); the remaining
registered names manipulate pixel encodings outside this model. -/
def PILLOW_PROCESSORS : Registry PImg := fun n =>
  if n = "autorotate" then some fun h _ => autorotate h
  else if n = "thumbnail" then some fun h a => thumbnail h (a.headD (0, 0))
  else if n = "crop" then some fun h a => crop h (a.headD (0, 0))
  else if n = "force_jpeg" then some fun h _ => force_jpeg h
  else none

/-- The default accepted-extension set of `websafe`. -/
def websafe_extensions : List String := [".png", ".gif", ".jpg", ".jpeg"]

/-- The spec function returned by `websafe(processors)` in
`imagefield/websafe.py` (with the default extension set): rewrites the
context before the chain runs. -/
def websafe (processors : List PSpec) (context : Ctx) : Ctx :=
  if py_lower context.extension ∈ websafe_extensions then
    { context with processors := processors }
  else
    { context with extension := ".jpg", processors := ⟨"force_jpeg", []⟩ :: processors }

/-- Embedding of `PillowBackend.save` from `imagefield/backend_pillow.py`.
`attempt m` tells whether `image.save` succeeds when `ImageFile.MAXBLOCK`
is `m` (`false` = the encoder raises `OSError`).  Returns
(success of the call, the `MAXBLOCK` values used by the attempts made,
the `MAXBLOCK` value left in place after the `finally`). -/
def pillow_save (attempt : ℕ → Bool) (maxblock : ℕ) : Bool × List ℕ × ℕ :=
  if attempt maxblock then (true, [maxblock], maxblock)
  else if attempt (maxblock * 16) then (true, [maxblock, maxblock * 16], maxblock)
  else (false, [maxblock, maxblock * 16], maxblock)

/-- A log-appending test processor: records `pre` before calling downstream
and `post` after it returns (the observation-log processors of the
chain-order property). -/
def log_processor (pre post : String) (get_image : Handler (List String)) :
    Handler (List String) :=
  fun log context =>
    let r := get_image (log ++ [pre]) context
    (r.1 ++ [post], r.2)

/-- Registry holding the two observation-log processors `p1` and `p2`. -/
def LOG_PROCESSORS : Registry (List String) := fun n =>
  if n = "p1" then some fun h _ => log_processor "p1:pre" "p1:post" h
  else if n = "p2" then some fun h _ => log_processor "p2:pre" "p2:post" h
  else none

/-- The crop box the specification text literally describes for the
relatively-wider case: center `round(W·px)` (instead of the `int()`
truncation), width `round(tw/th · H)`, left clamped low then high.
truncation of the code). Stated from the words of the spec for comparison
with `calculate_crop_box`. -/
def claimed_crop_box_wide (W H tw th : ℤ) (px : ℚ) : CropBox :=
  let cw := round ((tw : ℚ) / (th : ℚ) * (H : ℚ))
  let l0 := round ((W : ℚ) * px) - cw / 2
  CropBox.mk (if l0 < 0 then 0 else if W < l0 + cw then W - cw else l0) 0 cw H

/-- The thumbnail size the specification text literally describes:
`round(f·w), round(f·h)` (instead of the `int()` truncation of the code).
Stated from the words of the spec for comparison with `thumbnail_size`. -/
def claimed_thumbnail_size (w h mw mh : ℤ) : ℤ × ℤ :=
  let f : ℚ := min 1 (min ((mw : ℚ) / (w : ℚ)) ((mh : ℚ) / (h : ℚ)))
  (round (f * (w : ℚ)), round (f * (h : ℚ)))

/-! ## Shared helper lemmas -/

theorem pyInt_of_nonneg {q : ℚ} (h : 0 ≤ q) : pyInt q = ⌊q⌋ := if_pos h

theorem pyInt_eval {q : ℚ} {n : ℤ} (h1 : (n : ℚ) ≤ q) (h2 : q < n + 1) (h0 : 0 ≤ q) :
    pyInt q = n := by
  rw [pyInt_of_nonneg h0]
  exact Int.floor_eq_iff.mpr ⟨h1, h2⟩

theorem crop_clamp_bounds (pos : ℤ) {len bound : ℤ} (h0 : 0 ≤ len) (h1 : len ≤ bound) :
    0 ≤ crop_clamp pos len bound ∧ crop_clamp pos len bound + len ≤ bound := by
  unfold crop_clamp; split_ifs <;> omega

theorem crop_clamp_of_nonpos {pos len bound : ℤ} (hp : pos ≤ 0) (h0 : 0 ≤ len)
    (h1 : len ≤ bound) : crop_clamp pos len bound = 0 := by
  unfold crop_clamp; split_ifs <;> omega

theorem crop_clamp_of_ge {pos len bound : ℤ} (hp : bound ≤ pos + len) (hp0 : 0 ≤ pos)
    (h0 : 0 ≤ len) (h1 : len ≤ bound) : crop_clamp pos len bound + len = bound := by
  unfold crop_clamp; split_ifs <;> omega

theorem build_handler_all_found {α : Type} (registry : Registry α) (base : Handler α) :
    ∀ specs : List PSpec, (∀ s ∈ specs, (registry s.name).isSome) →
      ∃ h, build_handler registry specs base = .ok h
  | [], _ => ⟨base, rfl⟩
  | s :: rest, hall => by
    obtain ⟨inner, hi⟩ := build_handler_all_found registry base rest
      (fun t ht => hall t (List.mem_cons_of_mem _ ht))
    have hs := hall s (List.mem_cons_self s rest)
    obtain ⟨f, hf⟩ := Option.isSome_iff_exists.mp hs
    exact ⟨f inner s.args, by rw [build_handler, hi, hf]⟩

/-! ## Claim theorems -/

/-- C5: in the `save` of the Pillow backend, a failed encode triggers exactly one
automatic retry at 16× the original `ImageFile.MAXBLOCK`, the first attempt
always uses the original allowance, at most two attempts are made, success
is attained iff either attempt succeeds, and on every exit path (first
success, retry success, retry failure) the original allowance is restored
before `save` returns. -/
theorem pillow_save_retry (attempt : ℕ → Bool) (m : ℕ) :
    (pillow_save attempt m).2.2 = m ∧
    (pillow_save attempt m).2.1 = (if attempt m then [m] else [m, m * 16]) ∧
    (pillow_save attempt m).2.1.length ≤ 2 ∧
    (pillow_save attempt m).2.1.head? = some m ∧
    (pillow_save attempt m).1 = (attempt m || attempt (m * 16)) := by
  cases hm : attempt m <;> cases hm16 : attempt (m * 16) <;>
    simp [pillow_save, hm, hm16]

/-- C9: for the empty processor specification, `build_handler` returns its
default base handler, the identity transform, which returns the image
unchanged and leaves the whole context (`save_kwargs` included) untouched. -/
theorem build_handler_empty_identity (α : Type) (registry : Registry α) :
    build_handler_default registry [] = Except.ok (idHandler (α := α)) ∧
    ∀ (image : α) (context : Ctx), idHandler image context = (image, context) :=
  ⟨rfl, fun _ _ => rfl⟩

/-- C3: `build_handler` composes `["p1", "p2"]` by walking the list in
reverse and wrapping each factory around the accumulated handler, yielding
the nesting `p1 (p2 base)`; invoking the composed transform runs the
pre-downstream logic of `p1` first, then the full logic of `p2`, then the
post-downstream logic of `p1` (onion ordering), as observed on a shared log. -/
theorem chain_onion_order (log0 : List String) (context : Ctx) :
    build_handler LOG_PROCESSORS [⟨"p1", []⟩, ⟨"p2", []⟩] idHandler =
      Except.ok (log_processor "p1:pre" "p1:post"
        (log_processor "p2:pre" "p2:post" idHandler)) ∧
    (log_processor "p1:pre" "p1:post" (log_processor "p2:pre" "p2:post" idHandler))
        log0 context =
      (log0 ++ ["p1:pre", "p2:pre", "p2:post", "p1:post"], context) := by
  constructor
  · rfl
  · simp [log_processor, idHandler]

/-- C6: the `websafe` spec function leaves the extension alone and uses the
given processor list unchanged when the current extension (lowercased) is in
the accepted set `{.png, .gif, .jpg, .jpeg}`; otherwise it rewrites the
extension to `".jpg"` and puts `"force_jpeg"` in front of the given
processors.  In particular `.bmp` with `["default"]` yields extension
`".jpg"` and processors `["force_jpeg", "default"]`. -/
theorem websafe_rewrite (processors : List PSpec) (context : Ctx) :
    (py_lower context.extension ∈ websafe_extensions →
      (websafe processors context).extension = context.extension ∧
      (websafe processors context).processors = processors) ∧
    (py_lower context.extension ∉ websafe_extensions →
      (websafe processors context).extension = ".jpg" ∧
      (websafe processors context).processors = ⟨"force_jpeg", []⟩ :: processors) ∧
    ((websafe [⟨"default", []⟩] ⟨(0, 0), ".bmp", [], []⟩).extension = ".jpg" ∧
      (websafe [⟨"default", []⟩] ⟨(0, 0), ".bmp", [], []⟩).processors =
        [⟨"force_jpeg", []⟩, ⟨"default", []⟩]) := by
  refine ⟨fun h => ?_, fun h => ?_, ?_⟩
  · rw [websafe, if_pos h]; exact ⟨rfl, rfl⟩
  · rw [websafe, if_neg h]; exact ⟨rfl, rfl⟩
  · constructor <;> rfl

/-- Witness for C6 at concrete inputs: a `.png` context keeps its extension
and gets exactly the given processors. -/
theorem websafe_rewrite_witness :
    (websafe [⟨"default", []⟩] ⟨(0, 0), ".png", [], []⟩).extension = ".png" ∧
    (websafe [⟨"default", []⟩] ⟨(0, 0), ".png", [], []⟩).processors = [⟨"default", []⟩] :=
  (websafe_rewrite [⟨"default", []⟩] ⟨(0, 0), ".png", [], []⟩).1 (by decide)

/-! ## Evaluation helpers (concrete instances, ℚ arithmetic via `norm_num`) -/

theorem thumbnail_size_eval {w h mw mh : ℤ} {f : ℚ}
    (hf : min 1 (min ((mw : ℚ) / (w : ℚ)) ((mh : ℚ) / (h : ℚ))) = f) {a b : ℤ}
    (ha : pyInt (f * (w : ℚ)) = a) (hb : pyInt (f * (h : ℚ)) = b) :
    thumbnail_size w h mw mh = (a, b) := by
  simp only [thumbnail_size, hf, ha, hb]

theorem calculate_crop_box_wide_eval (W H tw th : ℤ) (px py : ℚ)
    (hcond : (tw : ℚ) / (th : ℚ) ≤ (W : ℚ) / (H : ℚ)) {c cw : ℤ}
    (hc : pyInt ((W : ℚ) * px) = c)
    (hcw : pyInt ((tw : ℚ) / (th : ℚ) * (H : ℚ) + 1/2) = cw) :
    calculate_crop_box W H tw th (px, py) =
      CropBox.mk (crop_clamp (c - cw / 2) cw W) 0 cw H := by
  simp only [calculate_crop_box, if_pos hcond, hc, hcw]

theorem calculate_crop_box_tall_eval (W H tw th : ℤ) (px py : ℚ)
    (hcond : ¬((tw : ℚ) / (th : ℚ) ≤ (W : ℚ) / (H : ℚ))) {c ch : ℤ}
    (hc : pyInt ((H : ℚ) * py) = c)
    (hch : pyInt ((W : ℚ) / ((tw : ℚ) / (th : ℚ)) + 1/2) = ch) :
    calculate_crop_box W H tw th (px, py) =
      CropBox.mk 0 (crop_clamp (c - ch / 2) ch H) W ch := by
  simp only [calculate_crop_box, if_neg hcond, hc, hch]

/-! ## Bounds of the computed crop width / height -/

theorem floor_add_half_close (q : ℚ) : |((⌊q + 1/2⌋ : ℤ) : ℚ) - q| ≤ 1 := by
  have h1 : ((⌊q + 1/2⌋ : ℤ) : ℚ) ≤ q + 1/2 := Int.floor_le _
  have h2 : q + 1/2 - 1 < ((⌊q + 1/2⌋ : ℤ) : ℚ) := Int.sub_one_lt_floor _
  rw [abs_le]
  constructor <;> linarith

theorem wide_crop_width_bounds {W H tw th : ℤ} (hH : 1 ≤ H) (htw : 1 ≤ tw) (hth : 1 ≤ th)
    (hcond : (tw : ℚ) / (th : ℚ) ≤ (W : ℚ) / (H : ℚ)) :
    0 ≤ pyInt ((tw : ℚ) / (th : ℚ) * (H : ℚ) + 1 / 2) ∧
    pyInt ((tw : ℚ) / (th : ℚ) * (H : ℚ) + 1 / 2) ≤ W := by
  have hH0 : (0 : ℚ) < (H : ℚ) := by exact_mod_cast lt_of_lt_of_le Int.zero_lt_one hH
  have hth0 : (0 : ℚ) < (th : ℚ) := by exact_mod_cast lt_of_lt_of_le Int.zero_lt_one hth
  have htw0 : (0 : ℚ) ≤ (tw : ℚ) := by exact_mod_cast le_trans zero_le_one htw
  have hq0 : 0 ≤ (tw : ℚ) / (th : ℚ) * (H : ℚ) :=
    mul_nonneg (div_nonneg htw0 (le_of_lt hth0)) (le_of_lt hH0)
  have hqW : (tw : ℚ) / (th : ℚ) * (H : ℚ) ≤ (W : ℚ) := by
    have h := mul_le_mul_of_nonneg_right hcond (le_of_lt hH0)
    rwa [div_mul_cancel₀ _ (ne_of_gt hH0)] at h
  rw [pyInt_of_nonneg (by linarith)]
  refine ⟨Int.floor_nonneg.mpr (by linarith), ?_⟩
  have h2 : ⌊(tw : ℚ) / (th : ℚ) * (H : ℚ) + 1 / 2⌋ ≤ ⌊(W : ℚ) + 1 / 2⌋ :=
    Int.floor_le_floor (by linarith)
  have h3 : ⌊(W : ℚ) + 1 / 2⌋ = W + ⌊(1 : ℚ) / 2⌋ := Int.floor_int_add W (1 / 2)
  have h4 : ⌊(1 : ℚ) / 2⌋ = 0 := by norm_num [Int.floor_eq_iff]
  omega

theorem tall_crop_height_bounds {W H tw th : ℤ} (hW : 1 ≤ W) (hH : 1 ≤ H)
    (htw : 1 ≤ tw) (hth : 1 ≤ th)
    (hcond : ¬((tw : ℚ) / (th : ℚ) ≤ (W : ℚ) / (H : ℚ))) :
    0 ≤ pyInt ((W : ℚ) / ((tw : ℚ) / (th : ℚ)) + 1 / 2) ∧
    pyInt ((W : ℚ) / ((tw : ℚ) / (th : ℚ)) + 1 / 2) ≤ H := by
  push_neg at hcond
  have hW0 : (0 : ℚ) < (W : ℚ) := by exact_mod_cast lt_of_lt_of_le Int.zero_lt_one hW
  have hH0 : (0 : ℚ) < (H : ℚ) := by exact_mod_cast lt_of_lt_of_le Int.zero_lt_one hH
  have htw0 : (0 : ℚ) < (tw : ℚ) := by exact_mod_cast lt_of_lt_of_le Int.zero_lt_one htw
  have hth0 : (0 : ℚ) < (th : ℚ) := by exact_mod_cast lt_of_lt_of_le Int.zero_lt_one hth
  have hr0 : (0 : ℚ) < (tw : ℚ) / (th : ℚ) := div_pos htw0 hth0
  have hq0 : 0 ≤ (W : ℚ) / ((tw : ℚ) / (th : ℚ)) := div_nonneg (le_of_lt hW0) (le_of_lt hr0)
  have hcross : (W : ℚ) * (th : ℚ) < (tw : ℚ) * (H : ℚ) :=
    (div_lt_div_iff₀ hH0 hth0).mp hcond
  have hqH : (W : ℚ) / ((tw : ℚ) / (th : ℚ)) < (H : ℚ) := by
    rw [div_lt_iff₀ hr0, mul_comm, div_mul_eq_mul_div, lt_div_iff₀ hth0]
    linarith
  rw [pyInt_of_nonneg (by linarith)]
  refine ⟨Int.floor_nonneg.mpr (by linarith), ?_⟩
  have h2 : ⌊(W : ℚ) / ((tw : ℚ) / (th : ℚ)) + 1 / 2⌋ ≤ ⌊(H : ℚ) + 1 / 2⌋ :=
    Int.floor_le_floor (by linarith)
  have h3 : ⌊(H : ℚ) + 1 / 2⌋ = H + ⌊(1 : ℚ) / 2⌋ := Int.floor_int_add H (1 / 2)
  have h4 : ⌊(1 : ℚ) / 2⌋ = 0 := by norm_num [Int.floor_eq_iff]
  omega

/-! ## More claim theorems -/

/-- C7 (amended): when a specification entry names a processor that is
absent from the registry (and the entries processed before it, i.e. the
later ones, are all present), `build_handler` fails with the `KeyError`
(a `LookupError`) of the registry lookup, whose payload is exactly the
missing processor name — the active backend is not part of the error. -/
theorem build_lookup_error (α : Type) (registry : Registry α) (base : Handler α)
    (name : String) (args : List (ℤ × ℤ)) (rest : List PSpec)
    (hmiss : registry name = none)
    (hrest : ∀ s ∈ rest, (registry s.name).isSome) :
    build_handler registry (⟨name, args⟩ :: rest) base = Except.error name := by
  obtain ⟨inner, hi⟩ := build_handler_all_found registry base rest hrest
  simp [build_handler, hi, hmiss]

/-- Witness for C7 at a concrete input: `"zap"` is not registered for the
Pillow backend, so building `["zap", "autorotate"]` fails with the
`KeyError` carrying `"zap"`. -/
theorem build_lookup_error_witness :
    build_handler PILLOW_PROCESSORS [⟨"zap", []⟩, ⟨"autorotate", []⟩] idHandler =
      Except.error "zap" :=
  build_lookup_error PImg PILLOW_PROCESSORS idHandler "zap" [] [⟨"autorotate", []⟩] rfl
    (by intro s hs; simp at hs; subst hs; rfl)

/-- C7 counterexample to the claim as stated: the error raised for an
unregistered name is the bare `KeyError` of the dictionary lookup — its
payload is exactly the missing name, and the name of the active backend
(`"pillow"`) does not occur in it. -/
theorem lookup_error_omits_backend :
    build_handler PILLOW_PROCESSORS [⟨"nonexistent", []⟩] idHandler =
      Except.error "nonexistent" ∧
    ¬ List.IsInfix "pillow".data "nonexistent".data :=
  ⟨rfl, by decide⟩

/-- C10: `thumbnail` and `crop` invoke their downstream transform first and
compute the scale factor / crop box from the downstream result: in the
chains `["thumbnail", "autorotate"]` and `["crop", "autorotate"]` applied
to an image with the dimension-transposing EXIF orientation 6, the scale is
computed from the transposed dimensions `(h, w)` and the recorded crop box
is `calculate_crop_box h w … ` — and the transposed-dimension result
differs from the original-dimension one on a concrete rotated image. -/
theorem processors_use_downstream_dims (w h mw mh tw th : ℤ) (context : Ctx) :
    (∃ hdl, build_handler PILLOW_PROCESSORS
        [⟨"thumbnail", [(mw, mh)]⟩, ⟨"autorotate", []⟩] idHandler = Except.ok hdl ∧
      ∀ ops : List ImgOp,
        ((hdl ⟨w, h, 6, ops⟩ context).1.width, (hdl ⟨w, h, 6, ops⟩ context).1.height) =
          thumbnail_size h w mw mh) ∧
    (∃ hdl, build_handler PILLOW_PROCESSORS
        [⟨"crop", [(tw, th)]⟩, ⟨"autorotate", []⟩] idHandler = Except.ok hdl ∧
      ∀ ops : List ImgOp,
        (hdl ⟨w, h, 6, ops⟩ context).1.ops =
          ops ++ [.transposed, .cropped (calculate_crop_box h w tw th context.ppoi),
            .resized tw th]) ∧
    thumbnail_size 2 3 1 3 ≠ thumbnail_size 3 2 1 3 := by
  have htr : ∀ ops : List ImgOp, exif_transpose ⟨w, h, 6, ops⟩ =
      ⟨h, w, 1, ops ++ [.transposed]⟩ := by
    intro ops; simp [exif_transpose]
  refine ⟨⟨_, rfl, fun ops => ?_⟩, ⟨_, rfl, fun ops => ?_⟩, ?_⟩
  · simp [thumbnail, autorotate, idHandler, htr ops]
  · simp [crop, autorotate, idHandler, htr ops]
  · have e1 : thumbnail_size 2 3 1 3 = (1, 1) :=
      thumbnail_size_eval (f := 1/2) (by norm_num [min_def])
        (pyInt_eval (by norm_num) (by norm_num) (by norm_num))
        (pyInt_eval (by norm_num) (by norm_num) (by norm_num))
    have e2 : thumbnail_size 3 2 1 3 = (1, 0) :=
      thumbnail_size_eval (f := 1/3) (by norm_num [min_def])
        (pyInt_eval (by norm_num) (by norm_num) (by norm_num))
        (pyInt_eval (by norm_num) (by norm_num) (by norm_num))
    rw [e1, e2]; decide

/-- C1 (amended): in the relatively-wider case `W/H ≥ tw/th` the crop box
has top 0, height `H`, width `cw = round(tw/th · H)` (the round-half-up
computed by the code as `int(x + 0.5)`), and left `⌊W·px⌋ − ⌊cw/2⌋` — the point of
interest center is the `int()` **truncation** of `W·px`, not its rounding —
clamped low first (`< 0 → 0`) and then high (`+ cw > W → W − cw`). -/
theorem crop_box_wide_formula (W H tw th : ℤ) (px py : ℚ)
    (hW : 1 ≤ W) (hH : 1 ≤ H) (htw : 1 ≤ tw) (hth : 1 ≤ th) (hpx0 : 0 ≤ px)
    (hwide : (tw : ℚ) / (th : ℚ) ≤ (W : ℚ) / (H : ℚ)) :
    calculate_crop_box W H tw th (px, py) =
      CropBox.mk
        (if ⌊(W : ℚ) * px⌋ - round ((tw : ℚ) / (th : ℚ) * (H : ℚ)) / 2 < 0 then 0
         else if W < ⌊(W : ℚ) * px⌋ - round ((tw : ℚ) / (th : ℚ) * (H : ℚ)) / 2 +
             round ((tw : ℚ) / (th : ℚ) * (H : ℚ)) then
           W - round ((tw : ℚ) / (th : ℚ) * (H : ℚ))
         else ⌊(W : ℚ) * px⌋ - round ((tw : ℚ) / (th : ℚ) * (H : ℚ)) / 2)
        0 (round ((tw : ℚ) / (th : ℚ) * (H : ℚ))) H := by
  have hW0 : (0 : ℚ) ≤ (W : ℚ) := by exact_mod_cast le_trans zero_le_one hW
  have hH0 : (0 : ℚ) < (H : ℚ) := by exact_mod_cast lt_of_lt_of_le Int.zero_lt_one hH
  have hth0 : (0 : ℚ) < (th : ℚ) := by exact_mod_cast lt_of_lt_of_le Int.zero_lt_one hth
  have htw0 : (0 : ℚ) ≤ (tw : ℚ) := by exact_mod_cast le_trans zero_le_one htw
  have hq0 : 0 ≤ (tw : ℚ) / (th : ℚ) * (H : ℚ) :=
    mul_nonneg (div_nonneg htw0 (le_of_lt hth0)) (le_of_lt hH0)
  have h1 : pyInt ((W : ℚ) * px) = ⌊(W : ℚ) * px⌋ := pyInt_of_nonneg (mul_nonneg hW0 hpx0)
  have h2 : pyInt ((tw : ℚ) / (th : ℚ) * (H : ℚ) + 1/2) =
      round ((tw : ℚ) / (th : ℚ) * (H : ℚ)) := by
    rw [pyInt_of_nonneg (by linarith), round_eq]
  rw [calculate_crop_box_wide_eval W H tw th px py hwide h1 h2]
  rfl

/-- Witness for C1 at a concrete input: for `W=10, H=4, tw=th=1,
`ppoi=(3/8, 0)` the source is relatively wider and the crop box is
`(left 1, top 0, width 4, height 4)` (center `⌊10·3/8⌋ = 3`, `3 − 2 = 1`). -/
theorem crop_box_wide_formula_witness :
    (((1 : ℤ) : ℚ) / ((1 : ℤ) : ℚ) ≤ ((10 : ℤ) : ℚ) / ((4 : ℤ) : ℚ)) ∧
    calculate_crop_box 10 4 1 1 (3/8, 0) = CropBox.mk 1 0 4 4 := by
  have hw : ((1 : ℤ) : ℚ) / ((1 : ℤ) : ℚ) ≤ ((10 : ℤ) : ℚ) / ((4 : ℤ) : ℚ) := by norm_num
  refine ⟨hw, (crop_box_wide_formula 10 4 1 1 (3/8) 0 (by norm_num) (by norm_num)
    (by norm_num) (by norm_num) (by norm_num) hw).trans ?_⟩
  have r1 : round (((1 : ℤ) : ℚ) / ((1 : ℤ) : ℚ) * ((4 : ℤ) : ℚ)) = 4 := by
    rw [round_eq]; norm_num [Int.floor_eq_iff]
  have r2 : ⌊((10 : ℤ) : ℚ) * (3/8 : ℚ)⌋ = 3 := by norm_num [Int.floor_eq_iff]
  rw [r1, r2]
  decide

/-- C1 counterexample: at `W=10, H=4, tw=th=1, px=3/8` (a relatively-wider
instance) the crop left of the code is `⌊10·3/8⌋ − 4/2 = 3 − 2 = 1`, while the
claimed formula with a **rounded** center gives
`round(10·3/8) − 4/2 = 4 − 2 = 2`: the claimed `round(W·px)` center is
false of the code, which truncates. -/
theorem crop_box_round_counterexample :
    (((1 : ℤ) : ℚ) / ((1 : ℤ) : ℚ) ≤ ((10 : ℤ) : ℚ) / ((4 : ℤ) : ℚ)) ∧
    (calculate_crop_box 10 4 1 1 (3/8, 0)).left = 1 ∧
    (claimed_crop_box_wide 10 4 1 1 (3/8)).left = 2 := by
  refine ⟨by norm_num, ?_, ?_⟩
  · have hb := calculate_crop_box_wide_eval 10 4 1 1 (3/8) 0 (by norm_num)
      (pyInt_eval (n := 3) (by norm_num) (by norm_num) (by norm_num))
      (pyInt_eval (n := 4) (by norm_num) (by norm_num) (by norm_num))
    rw [hb]
    decide
  · have r1 : round (((1 : ℤ) : ℚ) / ((1 : ℤ) : ℚ) * ((4 : ℤ) : ℚ)) = 4 := by
      rw [round_eq]; norm_num [Int.floor_eq_iff]
    have r2 : round (((10 : ℤ) : ℚ) * (3/8 : ℚ)) = 4 := by
      rw [round_eq]; norm_num [Int.floor_eq_iff]
    simp only [claimed_crop_box_wide, r1, r2]
    decide

/-- C2: for positive source and target sizes and a point of interest in
`[0,1]²`, the crop box is contained in the image
(`0 ≤ left`, `0 ≤ top`, `left+width ≤ W`, `top+height ≤ H`) and its
width/height ratio matches `tw/th` to within one pixel of rounding
(`|width − tw/th·height| ≤ 1` or `|height − th/tw·width| ≤ 1`). -/
theorem crop_box_invariants (W H tw th : ℤ) (px py : ℚ)
    (hW : 1 ≤ W) (hH : 1 ≤ H) (htw : 1 ≤ tw) (hth : 1 ≤ th)
    (hpx0 : 0 ≤ px) (hpx1 : px ≤ 1) (hpy0 : 0 ≤ py) (hpy1 : py ≤ 1) :
    0 ≤ (calculate_crop_box W H tw th (px, py)).left ∧
    0 ≤ (calculate_crop_box W H tw th (px, py)).top ∧
    (calculate_crop_box W H tw th (px, py)).left +
      (calculate_crop_box W H tw th (px, py)).width ≤ W ∧
    (calculate_crop_box W H tw th (px, py)).top +
      (calculate_crop_box W H tw th (px, py)).height ≤ H ∧
    (|((calculate_crop_box W H tw th (px, py)).width : ℚ) -
        (tw : ℚ) / (th : ℚ) * ((calculate_crop_box W H tw th (px, py)).height : ℚ)| ≤ 1 ∨
      |((calculate_crop_box W H tw th (px, py)).height : ℚ) -
        (th : ℚ) / (tw : ℚ) * ((calculate_crop_box W H tw th (px, py)).width : ℚ)| ≤ 1) := by
  have hH0 : (0 : ℚ) < (H : ℚ) := by exact_mod_cast lt_of_lt_of_le Int.zero_lt_one hH
  have hth0 : (0 : ℚ) < (th : ℚ) := by exact_mod_cast lt_of_lt_of_le Int.zero_lt_one hth
  have htw0 : (0 : ℚ) < (tw : ℚ) := by exact_mod_cast lt_of_lt_of_le Int.zero_lt_one htw
  have hW0 : (0 : ℚ) < (W : ℚ) := by exact_mod_cast lt_of_lt_of_le Int.zero_lt_one hW
  by_cases hcond : (tw : ℚ) / (th : ℚ) ≤ (W : ℚ) / (H : ℚ)
  · obtain ⟨hcw0, hcwW⟩ := wide_crop_width_bounds hH htw hth hcond
    have hbox := calculate_crop_box_wide_eval W H tw th px py hcond rfl rfl
    rw [hbox]
    obtain ⟨hc1, hc2⟩ := crop_clamp_bounds
      (pyInt ((W : ℚ) * px) - pyInt ((tw : ℚ) / (th : ℚ) * (H : ℚ) + 1/2) / 2)
      hcw0 hcwW
    refine ⟨hc1, le_refl 0, hc2, by show (0 : ℤ) + H ≤ H; omega, Or.inl ?_⟩
    have hq0 : 0 ≤ (tw : ℚ) / (th : ℚ) * (H : ℚ) :=
      mul_nonneg (div_nonneg htw0.le hth0.le) hH0.le
    show |((pyInt ((tw : ℚ) / (th : ℚ) * (H : ℚ) + 1/2) : ℤ) : ℚ) -
        (tw : ℚ) / (th : ℚ) * ((H : ℤ) : ℚ)| ≤ 1
    rw [pyInt_of_nonneg (by linarith)]
    exact floor_add_half_close _
  · obtain ⟨hch0, hchH⟩ := tall_crop_height_bounds hW hH htw hth hcond
    have hbox := calculate_crop_box_tall_eval W H tw th px py hcond rfl rfl
    rw [hbox]
    obtain ⟨hc1, hc2⟩ := crop_clamp_bounds
      (pyInt ((H : ℚ) * py) - pyInt ((W : ℚ) / ((tw : ℚ) / (th : ℚ)) + 1/2) / 2)
      hch0 hchH
    refine ⟨le_refl 0, hc1, by show (0 : ℤ) + W ≤ W; omega, hc2, Or.inr ?_⟩
    have hr0 : (0 : ℚ) < (tw : ℚ) / (th : ℚ) := div_pos htw0 hth0
    have hq0 : 0 ≤ (W : ℚ) / ((tw : ℚ) / (th : ℚ)) := div_nonneg hW0.le hr0.le
    show |((pyInt ((W : ℚ) / ((tw : ℚ) / (th : ℚ)) + 1/2) : ℤ) : ℚ) -
        (th : ℚ) / (tw : ℚ) * ((W : ℤ) : ℚ)| ≤ 1
    rw [pyInt_of_nonneg (by linarith)]
    have hrw : (th : ℚ) / (tw : ℚ) * ((W : ℤ) : ℚ) = (W : ℚ) / ((tw : ℚ) / (th : ℚ)) := by
      rw [div_div_eq_mul_div, div_mul_eq_mul_div, mul_comm]
    rw [hrw]
    exact floor_add_half_close _

/-- Witness for C2 at a concrete input: source 4×3, target 2×1,
`ppoi = (1/2, 1/2)`. -/
theorem crop_box_invariants_witness :
    (0 : ℚ) ≤ (1/2 : ℚ) ∧ (1/2 : ℚ) ≤ 1 ∧
    (0 ≤ (calculate_crop_box 4 3 2 1 (1/2, 1/2)).left ∧
      0 ≤ (calculate_crop_box 4 3 2 1 (1/2, 1/2)).top ∧
      (calculate_crop_box 4 3 2 1 (1/2, 1/2)).left +
        (calculate_crop_box 4 3 2 1 (1/2, 1/2)).width ≤ 4 ∧
      (calculate_crop_box 4 3 2 1 (1/2, 1/2)).top +
        (calculate_crop_box 4 3 2 1 (1/2, 1/2)).height ≤ 3 ∧
      (|((calculate_crop_box 4 3 2 1 (1/2, 1/2)).width : ℚ) -
          ((2 : ℤ) : ℚ) / ((1 : ℤ) : ℚ) * ((calculate_crop_box 4 3 2 1 (1/2, 1/2)).height : ℚ)| ≤ 1 ∨
        |((calculate_crop_box 4 3 2 1 (1/2, 1/2)).height : ℚ) -
          ((1 : ℤ) : ℚ) / ((2 : ℤ) : ℚ) * ((calculate_crop_box 4 3 2 1 (1/2, 1/2)).width : ℚ)| ≤ 1)) :=
  ⟨by norm_num, by norm_num,
    crop_box_invariants 4 3 2 1 (1/2) (1/2) (by norm_num) (by norm_num) (by norm_num)
      (by norm_num) (by norm_num) (by norm_num) (by norm_num) (by norm_num)⟩

/-- C8: when the point of interest sits on an edge the crop box aligns with
that edge: `px = 0` gives `left = 0`, `px = 1` gives `left + width = W`,
`py = 0` gives `top = 0`, `py = 1` gives `top + height = H`. -/
theorem crop_box_edge_alignment (W H tw th : ℤ) (px py : ℚ)
    (hW : 1 ≤ W) (hH : 1 ≤ H) (htw : 1 ≤ tw) (hth : 1 ≤ th) :
    (calculate_crop_box W H tw th (0, py)).left = 0 ∧
    (calculate_crop_box W H tw th (1, py)).left +
      (calculate_crop_box W H tw th (1, py)).width = W ∧
    (calculate_crop_box W H tw th (px, 0)).top = 0 ∧
    (calculate_crop_box W H tw th (px, 1)).top +
      (calculate_crop_box W H tw th (px, 1)).height = H := by
  have hW0 : (0 : ℚ) ≤ (W : ℚ) := by exact_mod_cast le_trans zero_le_one hW
  have hH0 : (0 : ℚ) ≤ (H : ℚ) := by exact_mod_cast le_trans zero_le_one hH
  have hx0 : pyInt ((W : ℚ) * 0) = 0 := by
    rw [mul_zero, pyInt_of_nonneg le_rfl, Int.floor_zero]
  have hx1 : pyInt ((W : ℚ) * 1) = W := by
    rw [mul_one, pyInt_of_nonneg hW0, Int.floor_intCast]
  have hy0 : pyInt ((H : ℚ) * 0) = 0 := by
    rw [mul_zero, pyInt_of_nonneg le_rfl, Int.floor_zero]
  have hy1 : pyInt ((H : ℚ) * 1) = H := by
    rw [mul_one, pyInt_of_nonneg hH0, Int.floor_intCast]
  by_cases hcond : (tw : ℚ) / (th : ℚ) ≤ (W : ℚ) / (H : ℚ)
  · obtain ⟨hcw0, hcwW⟩ := wide_crop_width_bounds hH htw hth hcond
    refine ⟨?_, ?_, ?_, ?_⟩
    · rw [calculate_crop_box_wide_eval W H tw th 0 py hcond hx0 rfl]
      exact crop_clamp_of_nonpos (by omega) hcw0 hcwW
    · rw [calculate_crop_box_wide_eval W H tw th 1 py hcond hx1 rfl]
      exact crop_clamp_of_ge (by omega) (by omega) hcw0 hcwW
    · rw [calculate_crop_box_wide_eval W H tw th px 0 hcond rfl rfl]
    · rw [calculate_crop_box_wide_eval W H tw th px 1 hcond rfl rfl]
      show (0 : ℤ) + H = H
      omega
  · obtain ⟨hch0, hchH⟩ := tall_crop_height_bounds hW hH htw hth hcond
    refine ⟨?_, ?_, ?_, ?_⟩
    · rw [calculate_crop_box_tall_eval W H tw th 0 py hcond rfl rfl]
    · rw [calculate_crop_box_tall_eval W H tw th 1 py hcond rfl rfl]
      show (0 : ℤ) + W = W
      omega
    · rw [calculate_crop_box_tall_eval W H tw th px 0 hcond hy0 rfl]
      exact crop_clamp_of_nonpos (by omega) hch0 hchH
    · rw [calculate_crop_box_tall_eval W H tw th px 1 hcond hy1 rfl]
      exact crop_clamp_of_ge (by omega) (by omega) hch0 hchH

/-- Witness for C8 at a concrete input: source 4×3, target 2×1. -/
theorem crop_box_edge_alignment_witness :
    ((1 : ℤ) ≤ 4) ∧
    ((calculate_crop_box 4 3 2 1 (0, 1/3)).left = 0 ∧
      (calculate_crop_box 4 3 2 1 (1, 1/3)).left +
        (calculate_crop_box 4 3 2 1 (1, 1/3)).width = 4 ∧
      (calculate_crop_box 4 3 2 1 (1/3, 0)).top = 0 ∧
      (calculate_crop_box 4 3 2 1 (1/3, 1)).top +
        (calculate_crop_box 4 3 2 1 (1/3, 1)).height = 3) :=
  ⟨by norm_num,
    crop_box_edge_alignment 4 3 2 1 (1/3) (1/3) (by norm_num) (by norm_num)
      (by norm_num) (by norm_num)⟩

/-- C4 (amended): the thumbnail processor computes
`f = min(1, mw/w, mh/h)` and produces exactly `(⌊f·w⌋, ⌊f·h⌋)` — the
truncation computed by `int()` in the code, not rounding — and never
increases either
dimension. -/
theorem thumbnail_never_upscales (w h mw mh : ℤ) (hw : 1 ≤ w) (hh : 1 ≤ h)
    (hmw : 0 ≤ mw) (hmh : 0 ≤ mh) :
    thumbnail_size w h mw mh =
      (⌊min 1 (min ((mw : ℚ) / (w : ℚ)) ((mh : ℚ) / (h : ℚ))) * (w : ℚ)⌋,
        ⌊min 1 (min ((mw : ℚ) / (w : ℚ)) ((mh : ℚ) / (h : ℚ))) * (h : ℚ)⌋) ∧
    (thumbnail_size w h mw mh).1 ≤ w ∧ (thumbnail_size w h mw mh).2 ≤ h ∧
    ∀ (o : ℕ) (ops : List ImgOp) (context : Ctx),
      ((thumbnail idHandler (mw, mh)) ⟨w, h, o, ops⟩ context).1.width =
          (thumbnail_size w h mw mh).1 ∧
        ((thumbnail idHandler (mw, mh)) ⟨w, h, o, ops⟩ context).1.height =
          (thumbnail_size w h mw mh).2 := by
  have hw0 : (0 : ℚ) < (w : ℚ) := by exact_mod_cast lt_of_lt_of_le Int.zero_lt_one hw
  have hh0 : (0 : ℚ) < (h : ℚ) := by exact_mod_cast lt_of_lt_of_le Int.zero_lt_one hh
  have hmw0 : (0 : ℚ) ≤ (mw : ℚ) := by exact_mod_cast hmw
  have hmh0 : (0 : ℚ) ≤ (mh : ℚ) := by exact_mod_cast hmh
  have hf0 : 0 ≤ min 1 (min ((mw : ℚ) / (w : ℚ)) ((mh : ℚ) / (h : ℚ))) :=
    le_min zero_le_one (le_min (div_nonneg hmw0 hw0.le) (div_nonneg hmh0 hh0.le))
  have hf1 : min 1 (min ((mw : ℚ) / (w : ℚ)) ((mh : ℚ) / (h : ℚ))) ≤ 1 := min_le_left _ _
  have e : thumbnail_size w h mw mh =
      (⌊min 1 (min ((mw : ℚ) / (w : ℚ)) ((mh : ℚ) / (h : ℚ))) * (w : ℚ)⌋,
        ⌊min 1 (min ((mw : ℚ) / (w : ℚ)) ((mh : ℚ) / (h : ℚ))) * (h : ℚ)⌋) := by
    simp only [thumbnail_size]
    rw [pyInt_of_nonneg (mul_nonneg hf0 hw0.le), pyInt_of_nonneg (mul_nonneg hf0 hh0.le)]
  refine ⟨e, ?_, ?_, fun o ops context => ⟨rfl, rfl⟩⟩
  · rw [e]
    show ⌊min 1 (min ((mw : ℚ) / (w : ℚ)) ((mh : ℚ) / (h : ℚ))) * (w : ℚ)⌋ ≤ w
    have : min 1 (min ((mw : ℚ) / (w : ℚ)) ((mh : ℚ) / (h : ℚ))) * (w : ℚ) ≤ (w : ℚ) :=
      mul_le_of_le_one_left hw0.le hf1
    calc ⌊min 1 (min ((mw : ℚ) / (w : ℚ)) ((mh : ℚ) / (h : ℚ))) * (w : ℚ)⌋
        ≤ ⌊(w : ℚ)⌋ := Int.floor_le_floor this
      _ = w := Int.floor_intCast w
  · rw [e]
    show ⌊min 1 (min ((mw : ℚ) / (w : ℚ)) ((mh : ℚ) / (h : ℚ))) * (h : ℚ)⌋ ≤ h
    have : min 1 (min ((mw : ℚ) / (w : ℚ)) ((mh : ℚ) / (h : ℚ))) * (h : ℚ) ≤ (h : ℚ) :=
      mul_le_of_le_one_left hh0.le hf1
    calc ⌊min 1 (min ((mw : ℚ) / (w : ℚ)) ((mh : ℚ) / (h : ℚ))) * (h : ℚ)⌋
        ≤ ⌊(h : ℚ)⌋ := Int.floor_le_floor this
      _ = h := Int.floor_intCast h

/-- Witness for C4 at a concrete input: bounds 1×3 on a 2×3 source. -/
theorem thumbnail_never_upscales_witness :
    ((1 : ℤ) ≤ 2) ∧ ((0 : ℤ) ≤ 1) ∧
    (thumbnail_size 2 3 1 3).1 ≤ 2 ∧ (thumbnail_size 2 3 1 3).2 ≤ 3 :=
  ⟨by norm_num, by norm_num,
    (thumbnail_never_upscales 2 3 1 3 (by norm_num) (by norm_num) (by norm_num)
      (by norm_num)).2.1,
    (thumbnail_never_upscales 2 3 1 3 (by norm_num) (by norm_num) (by norm_num)
      (by norm_num)).2.2.1⟩

/-- C4 counterexample: source 2×3, bounds 1×3, so `f = 1/2` and
`f·h = 3/2`: the code truncates to height 1 while the claimed
`round(f·src_h)` would give height 2. -/
theorem thumbnail_round_counterexample :
    thumbnail_size 2 3 1 3 = (1, 1) ∧ claimed_thumbnail_size 2 3 1 3 = (1, 2) := by
  constructor
  · exact thumbnail_size_eval (f := 1/2) (by norm_num [min_def])
      (pyInt_eval (by norm_num) (by norm_num) (by norm_num))
      (pyInt_eval (by norm_num) (by norm_num) (by norm_num))
  · have hm : min (1 : ℚ) (min (((1 : ℤ) : ℚ) / ((2 : ℤ) : ℚ)) (((3 : ℤ) : ℚ) / ((3 : ℤ) : ℚ))) =
        1/2 := by norm_num [min_def]
    simp only [claimed_thumbnail_size, hm, Prod.mk.injEq]
    refine ⟨?_, ?_⟩ <;> rw [round_eq] <;> norm_num [Int.floor_eq_iff]

end ImageField
